import Mathlib

/-!
Verification of the dom entity-component library (src/dom.h) against its
natural-language specification.  The C++ source is shallowly embedded:
each class becomes a Lean structure over `Nat`/`List`, each member function a
pure state-passing function.  Machine-integer wraparound is modelled
explicitly where the verdict of a claim depends on it (the `unsigned`
reference counter of `MetaData` and the `unsigned short` generation
counters); elsewhere counters stay in `Nat`.
-/

set_option autoImplicit false

namespace Dom

/-- `ChunkedArrayHandle` (dom.h lines 47-70): a (block, index) pair.
The C++ fields are `unsigned short`; the runs below never leave that range. -/
structure Handle where
  block : Nat
  index : Nat
deriving DecidableEq, Repr, Inhabited

/-- `ChunkedArrayHandle::null()` (dom.h line 56): both fields are
`std::numeric_limits<unsigned short>::max()`. -/
def Handle.nullHandle : Handle := ⟨65535, 65535⟩

/-- First value bound to a handle key in an association list, newest first. -/
def storeLookup {α : Type} (k : Handle) : List (Handle × α) → Option α
  | [] => none
  | (k2, v) :: rest => if k2 = k then some v else storeLookup k rest

/-- Remove every binding of a handle key from an association list. -/
def storeErase {α : Type} (k : Handle) : List (Handle × α) → List (Handle × α)
  | [] => []
  | (k2, v) :: rest => if k2 = k then storeErase k rest else (k2, v) :: storeErase k rest

/-- `ChunkedArray<T, BLOCK_SIZE, REUSE_C>` (dom.h lines 93-141).
`blocks` is the per-block `contentCount` sequence (`mBlocks`), `freeSlots` the
FIFO queue `mFreeSlots` (head = front, pushes at the back), and `store` the
logical contents: which slot currently holds which constructed element. -/
structure ChunkedArray (α : Type) where
  blocks : List Nat
  freeSlots : List Handle
  store : List (Handle × α)
deriving DecidableEq, Repr

/-- The constructor (dom.h lines 592-597): a single block, no elements. -/
def ChunkedArray.init (α : Type) : ChunkedArray α := ⟨[0], [], []⟩

/-- `ChunkedArray::add` (dom.h lines 599-628).  Slot choice: reuse the front of
the free queue when its size exceeds `REUSE_C`; else open a new block when the
last block's `contentCount` has reached `BLOCK_SIZE`; else take the last
block's slot at index `contentCount`.  Then `contentCount` of the chosen slot's
block is incremented and the element is constructed in place (modelled as
overwriting the slot's binding in `store`). -/
def ChunkedArray.add {α : Type} (REUSE_C BLOCK_SIZE : Nat) (ca : ChunkedArray α) (x : α) :
    Handle × ChunkedArray α :=
  let last := (ca.blocks.getLast?).getD 0
  let pick : Handle × List Nat × List Handle :=
    if REUSE_C < ca.freeSlots.length then
      (ca.freeSlots.headD Handle.nullHandle, ca.blocks, ca.freeSlots.tail)
    else if BLOCK_SIZE ≤ last then
      (⟨ca.blocks.length, 0⟩, ca.blocks ++ [0], ca.freeSlots)
    else
      (⟨ca.blocks.length - 1, last⟩, ca.blocks, ca.freeSlots)
  let h := pick.1
  (h, { blocks := pick.2.1.set h.block (pick.2.1.getD h.block 0 + 1),
        freeSlots := pick.2.2,
        store := (h, x) :: storeErase h ca.store })

/-- `ChunkedArray::destroy` (dom.h lines 642-649): decrement the block's
`contentCount`, destroy the element in place, push the handle on the free
queue. -/
def ChunkedArray.destroy {α : Type} (ca : ChunkedArray α) (h : Handle) : ChunkedArray α :=
  { blocks := ca.blocks.set h.block (ca.blocks.getD h.block 0 - 1),
    freeSlots := ca.freeSlots ++ [h],
    store := storeErase h ca.store }

/-- `ChunkedArray::get` (dom.h lines 630-640), as a fallible read of the
logical store: `none` means the slot holds no constructed element (a read the
C++ performs as undefined behaviour). -/
def ChunkedArray.get? {α : Type} (ca : ChunkedArray α) (h : Handle) : Option α :=
  storeLookup h ca.store

/-- The static id counter of `ComponentTraitsBase::newID` together with the
per-type latched ids of the `ComponentTraits<C>::getID` instantiations
(dom.h lines 668-687).  Component types are opaque `Nat` tokens; `cache`
records which token has latched which id. -/
structure TraitsState where
  idCounter : Nat
  cache : List (Nat × Nat)
deriving DecidableEq, Repr

def TraitsState.init : TraitsState := ⟨0, []⟩

/-- Lookup of a type token among the latched ids. -/
def findId (t : Nat) : List (Nat × Nat) → Option Nat
  | [] => none
  | (t2, i) :: rest => if t2 = t then some i else findId t rest

/-- `ComponentTraitsBase::newID` (dom.h lines 668-680): hand out the counter
and bump it while fewer than `COMP_TOTAL` ids were given, else throw
`ComponentCountError` (modelled as `none`) leaving the counter untouched. -/
def newID (COMP_TOTAL : Nat) (s : TraitsState) : Option Nat × TraitsState :=
  if s.idCounter < COMP_TOTAL then (some s.idCounter, { s with idCounter := s.idCounter + 1 })
  else (none, s)

/-- `ComponentTraits::getID` (dom.h lines 682-687): the id is a function-local
static, initialised from `newID` on the first successful call for the type and
returned unchanged on every later call.  When `newID` throws, nothing is
latched and the state is left as it was. -/
def getID (COMP_TOTAL : Nat) (t : Nat) (s : TraitsState) : Option Nat × TraitsState :=
  match findId t s.cache with
  | some i => (some i, s)
  | none =>
      match newID COMP_TOTAL s with
      | (some i, s2) => (some i, { s2 with cache := s2.cache ++ [(t, i)] })
      | (none, s2) => (none, s2)

/-- Call `getID` once for each type of a sequence, keeping the final state. -/
def registerSeq (COMP_TOTAL : Nat) (ts : List Nat) (s : TraitsState) : TraitsState :=
  ts.foldl (fun s2 t => (getID COMP_TOTAL t s2).2) s

/-- The cache produced by registering the types `ts` when the counter starts
at `c`: consecutive ids in registration order. -/
def idAssign (ts : List Nat) (c : Nat) : List (Nat × Nat) :=
  match ts with
  | [] => []
  | t :: rest => (t, c) :: idAssign rest (c + 1)

/-- `EntityHandle` (dom.h lines 254-334): slot handle, generation counter and
the owning `Universe` pointer, the latter modelled as an opaque `Nat`
identity. -/
structure EntityHandle where
  mHandle : Handle
  mGeneration : Nat
  mUniverse : Nat
deriving DecidableEq, Repr

/-- `EntityHandle::operator==` (dom.h lines 267-268): compares the slot handle
and the generation; the `mUniverse` pointer takes no part. -/
def EntityHandle.eqOp (a b : EntityHandle) : Bool :=
  (a.mHandle == b.mHandle) && (a.mGeneration == b.mGeneration)

/-- `MetaData` (dom.h lines 342-353): the membership bit vector
`mComponentMask`, the bit-to-rank table `mMetaData` (entries of unset bits are
uninitialised in C++ and modelled as 0), and the `unsigned` reference counter
`mSharedCount`. -/
structure MetaData where
  mask : List Bool
  positions : List Nat
  sharedCount : Nat
deriving DecidableEq, Repr

/-- The rank computation of the `MetaData` constructor (dom.h lines 777-786):
`mMetaData[i] = bitc++` for every set bit `i`, scanning the mask upward. -/
def mkPositions : List Bool → Nat → List Nat
  | [], _ => []
  | b :: rest, c => (if b then c else 0) :: mkPositions rest (if b then c + 1 else c)

/-- `MetaData::MetaData(initialMask)`: fresh metadata has count 0. -/
def MetaData.make (mask : List Bool) : MetaData := ⟨mask, mkPositions mask 0, 0⟩

/-- Decrement of the 32-bit `unsigned` counter `mSharedCount`:
`0 - 1` wraps around to `2^32 - 1`. -/
def dec32 (c : Nat) : Nat := if c = 0 then 4294967295 else c - 1

/-- `std::bitset::to_ullong` of the mask: the key under which
`mComponentMetadata` stores the metadata (dom.h line 1000). -/
def maskHash : List Bool → Nat
  | [] => 0
  | b :: rest => (if b then 1 else 0) + 2 * maskHash rest

/-- The `MetaData*` stored in an `EntityData`: it aims either at the member
`mEmptyMeta` or at the table entry with the given key.  Pointer equality of
the C++ references is equality of this type: the member and any table entry
are distinct objects, and distinct keys give distinct entries. -/
inductive MetaRef where
  | emptyMeta : MetaRef
  | table : Nat → MetaRef
deriving DecidableEq, Repr

/-- Lookup in `mComponentMetadata` (keys are unique). -/
def tblLookup (k : Nat) : List (Nat × MetaData) → Option MetaData
  | [] => none
  | (k2, m) :: rest => if k2 = k then some m else tblLookup k rest

/-- In-place update of the entry with key `k`. -/
def tblUpdate (k : Nat) (f : MetaData → MetaData) :
    List (Nat × MetaData) → List (Nat × MetaData)
  | [] => []
  | (k2, m) :: rest => if k2 = k then (k2, f m) :: rest else (k2, m) :: tblUpdate k f rest

/-- `mComponentMetadata.erase(key)`. -/
def tblErase (k : Nat) : List (Nat × MetaData) → List (Nat × MetaData)
  | [] => []
  | (k2, m) :: rest => if k2 = k then rest else (k2, m) :: tblErase k rest

/-- `EntityData` (dom.h lines 370-377): metadata reference plus the ordered
component handle sequence. -/
structure EntityData where
  mMetaData : MetaRef
  mComponentHandles : List Handle
deriving DecidableEq, Repr

/-- `Universe` (dom.h lines 391-497).  Component values are `Nat` so that the
`get`/`modify` round trip is observable; the per-type managers are all present
from the start (the C++ creates each `ChunkedArray` lazily in exactly the
state `ChunkedArray.init` denotes). -/
structure Universe where
  managers : List (ChunkedArray Nat)
  entityData : ChunkedArray EntityData
  generations : List Nat
  table : List (Nat × MetaData)
  emptyMeta : MetaData
deriving DecidableEq, Repr

/-- dom.h lines 399-401. -/
def ENTITY_BLOCK_SIZE : Nat := 8192

def COMPONENT_BLOCK_SIZE : Nat := 8192

def ENTITY_REUSE_C : Nat := 1024

/-- A fresh `Universe` with `CT` component types (`COMP_TOTAL`). -/
def Universe.fresh (CT : Nat) : Universe :=
  { managers := List.replicate CT (ChunkedArray.init Nat),
    entityData := ChunkedArray.init EntityData,
    generations := [],
    table := [],
    emptyMeta := MetaData.make (List.replicate CT false) }

/-- Resolve a metadata reference to the object it aims at. -/
def metaOf (s : Universe) : MetaRef → MetaData
  | MetaRef.emptyMeta => s.emptyMeta
  | MetaRef.table k => (tblLookup k s.table).getD (MetaData.make [])

/-- `Universe::getID` (dom.h lines 981-985). -/
def getEntityId (h : Handle) : Nat := h.block * ENTITY_BLOCK_SIZE + h.index

/-- `Universe::accommodateEntity` (dom.h lines 988-994): grow `mGenerations`
to `id+1` entries, new entries starting at generation 1. -/
def accommodate (gens : List Nat) (id : Nat) : List Nat :=
  if gens.length ≤ id then gens ++ List.replicate (id + 1 - gens.length) 1 else gens

/-- `Universe::valid` (dom.h lines 793-797). -/
def Universe.validE (s : Universe) (e : EntityHandle) : Bool :=
  s.generations.getD (getEntityId e.mHandle) 0 == e.mGeneration

/-- The entity record behind a handle (`mEntityData.get`). -/
def getRecord (ca : ChunkedArray EntityData) (h : Handle) : EntityData :=
  (storeLookup h ca.store).getD ⟨MetaRef.emptyMeta, []⟩

/-- Overwrite the entity record behind a handle (the C++ mutates the record
through the reference `mEntityData.get` returns). -/
def setRecord (ca : ChunkedArray EntityData) (h : Handle) (d : EntityData) :
    ChunkedArray EntityData :=
  { ca with store := (h, d) :: storeErase h ca.store }

/-- `Universe::create()` (dom.h lines 801-808): allocate a record, aim its
metadata reference at `mEmptyMeta` (without touching any reference count),
accommodate the generation table, and wrap slot plus current generation. -/
def Universe.create (s : Universe) : Universe × EntityHandle :=
  let r := s.entityData.add ENTITY_REUSE_C ENTITY_BLOCK_SIZE ⟨MetaRef.emptyMeta, []⟩
  let gens := accommodate s.generations (getEntityId r.1)
  ({ s with entityData := r.2, generations := gens },
   ⟨r.1, gens.getD (getEntityId r.1) 0, 0⟩)

/-- `Universe::connect` (dom.h lines 997-1006): look the mask's hash up in
`mComponentMetadata`, construct a fresh `MetaData` when absent, aim the record
at the entry and increment its count. -/
def connectTable (table : List (Nat × MetaData)) (mask : List Bool) :
    List (Nat × MetaData) × MetaRef :=
  let k := maskHash mask
  match tblLookup k table with
  | some _ =>
      (tblUpdate k (fun m => { m with sharedCount := m.sharedCount + 1 }) table,
       MetaRef.table k)
  | none => (table ++ [(k, { MetaData.make mask with sharedCount := 1 })], MetaRef.table k)

/-- `Universe::disconnect` (dom.h lines 1009-1018): decrement the referenced
metadata's count (an `unsigned`, so 0 wraps to `2^32 - 1`) and erase the
table entry for its mask when the count reaches 0. -/
def Universe.disconnect (s : Universe) (r : MetaRef) : Universe :=
  match r with
  | MetaRef.emptyMeta =>
      let c := dec32 s.emptyMeta.sharedCount
      let s2 := { s with emptyMeta := { s.emptyMeta with sharedCount := c } }
      if c = 0 then { s2 with table := tblErase (maskHash s.emptyMeta.mask) s2.table }
      else s2
  | MetaRef.table k =>
      match tblLookup k s.table with
      | none => s
      | some m =>
          let c := dec32 m.sharedCount
          if c = 0 then { s with table := tblErase k s.table }
          else { s with table := tblUpdate k (fun m2 => { m2 with sharedCount := c }) s.table }

/-- `ComponentInstantiator` construction (dom.h lines 1051-1064): every
requested component id constructs one instance (value 0) in its manager —
this happens at the call site, before `addComponent` runs. -/
def instantiateAll :
    List (ChunkedArray Nat) → List Nat → List (ChunkedArray Nat) × List (Nat × Handle)
  | ms, [] => (ms, [])
  | ms, c :: rest =>
      let r := (ms.getD c (ChunkedArray.init Nat)).add 0 COMPONENT_BLOCK_SIZE 0
      let rest2 := instantiateAll (ms.set c r.2) rest
      (rest2.1, (c, r.1) :: rest2.2)

/-- `ComponentUnpacker::unpack`, the mask-checking overload (dom.h lines
504-526 and 554-568): a type whose bit is clear contributes its handle and
sets the bit; a duplicate's freshly built instance is destroyed in its
manager (`ComponentInstantiator::clear`). -/
def unpackAll :
    List (ChunkedArray Nat) → List Handle → List Bool → List (Nat × Handle) →
      List (ChunkedArray Nat) × List Handle × List Bool
  | ms, hs, mask, [] => (ms, hs, mask)
  | ms, hs, mask, (c, h) :: rest =>
      if mask.getD c false then
        unpackAll (ms.set c ((ms.getD c (ChunkedArray.init Nat)).destroy h)) hs mask rest
      else
        unpackAll ms (hs ++ [h]) (mask.set c true) rest

/-- `ComponentUnpacker::unpack`, the unchecked overload used by the batch
create loop (dom.h lines 528-536 and 570-574): appends every handle. -/
def unpackPlain (hs : List Handle) (chs : List (Nat × Handle)) : List Handle :=
  hs ++ chs.map Prod.snd

/-- `std::swap(handles[i], handles[j])` for in-range indices. -/
def listSwap (l : List Handle) (i j : Nat) : List Handle :=
  match l.get? i, l.get? j with
  | some a, some b => (l.set i b).set j a
  | _, _ => l

/-- `ComponentUnpacker::sort` (dom.h lines 538-547 and 576-584): for the k-th
requested type `C1` (running index `i`), when `i` differs from the rank that
the metadata records for `C1`, the code swaps `handles[i]` with
`handles[getID(C1)]` — both raw indices into the handle vector.  The Bool
records whether a swap touched an index outside the vector, which is
undefined behaviour in the C++. -/
def sortHandles : List Nat → List Nat → Nat → List Handle → List Handle × Bool
  | [], _, _, hs => (hs, false)
  | c :: rest, pos, i, hs =>
      if i = pos.getD c 0 then sortHandles rest pos (i + 1) hs
      else
        let ok := decide (i < hs.length) && decide (c < hs.length)
        let hs2 := if ok then listSwap hs i c else hs
        let r := sortHandles rest pos (i + 1) hs2
        (r.1, r.2 || !ok)

/-- `Universe::addComponent` (dom.h lines 891-902), for the requested
component ids `cs` (in template-argument order): instantiate, unpack against
the current mask, disconnect from the old metadata, connect to the new mask,
then run the rank sort starting at the old handle count.  The Bool is the
out-of-bounds flag of the sort. -/
def Universe.addComponent (s : Universe) (e : EntityHandle) (cs : List Nat) :
    Universe × Bool :=
  let inst := instantiateAll s.managers cs
  let data := getRecord s.entityData e.mHandle
  let sizeBefore := data.mComponentHandles.length
  let mask0 := (metaOf s data.mMetaData).mask
  let up := unpackAll inst.1 data.mComponentHandles mask0 inst.2
  let s1 := { s with managers := up.1 }
  let s2 := s1.disconnect data.mMetaData
  let ct := connectTable s2.table up.2.2
  let s3 := { s2 with table := ct.1 }
  let pos := (metaOf s3 ct.2).positions
  let sorted := sortHandles cs pos sizeBefore up.2.1
  ({ s3 with entityData := setRecord s3.entityData e.mHandle ⟨ct.2, sorted.1⟩ },
   sorted.2)

/-- The component-destruction loop of `Universe::destroyEntity` (dom.h lines
870-877): for every `i` in `[0, COMP_TOTAL)` with the mask bit set, destroy
the handle stored at `i`'s recorded rank in the owning manager.  `n` counts
how many indices have been processed, ascending from 0. -/
def destroyLoop (mask : List Bool) (pos : List Nat) (hs : List Handle) :
    Nat → List (ChunkedArray Nat) → List (ChunkedArray Nat)
  | 0, ms => ms
  | n + 1, ms =>
      let ms2 := destroyLoop mask pos hs n ms
      if mask.getD n false then
        ms2.set n ((ms2.getD n (ChunkedArray.init Nat)).destroy
          (hs.getD (pos.getD n 0) Handle.nullHandle))
      else ms2

/-- `Universe::destroyEntity` (dom.h lines 865-880): a no-op on an invalid
handle; otherwise destroy every attached component, destroy the entity's
slot, and bump the slot's `unsigned short` generation counter once.  The
metadata reference count is not touched (no `disconnect` is performed). -/
def Universe.destroyEntity (CT : Nat) (s : Universe) (e : EntityHandle) : Universe :=
  if s.validE e then
    let data := getRecord s.entityData e.mHandle
    let meta := metaOf s data.mMetaData
    let id := getEntityId e.mHandle
    { s with
      managers := destroyLoop meta.mask meta.positions data.mComponentHandles CT s.managers,
      entityData := s.entityData.destroy e.mHandle,
      generations := s.generations.set id ((s.generations.getD id 0 + 1) % 65536) }
  else s

/-- `Universe::getComponent` (dom.h lines 918-934): resolve the rank recorded
for type id `c`, index the handle sequence, dereference the owning manager. -/
def Universe.getC (s : Universe) (e : EntityHandle) (c : Nat) : Option Nat :=
  let data := getRecord s.entityData e.mHandle
  let r := (metaOf s data.mMetaData).positions.getD c 0
  (s.managers.getD c (ChunkedArray.init Nat)).get?
    (data.mComponentHandles.getD r Handle.nullHandle)

/-- Replace the value stored at a live slot, leaving the slot itself alone. -/
def storeSet {α : Type} (k : Handle) (v : α) : List (Handle × α) → List (Handle × α)
  | [] => []
  | (k2, v2) :: rest => if k2 = k then (k2, v) :: rest else (k2, v2) :: storeSet k v rest

/-- A write through `Universe::modifyComponent` (dom.h lines 904-916): the
same resolution path as `getComponent`, then the component value behind the
resolved handle is overwritten. -/
def Universe.modifyC (s : Universe) (e : EntityHandle) (c : Nat) (v : Nat) : Universe :=
  let data := getRecord s.entityData e.mHandle
  let r := (metaOf s data.mMetaData).positions.getD c 0
  let h := data.mComponentHandles.getD r Handle.nullHandle
  let ca := s.managers.getD c (ChunkedArray.init Nat)
  { s with managers := s.managers.set c { ca with store := storeSet h v ca.store } }

/-- The loop of the batch create (dom.h lines 849-860): each iteration adds a
record, constructs its own component instances, unpacks them with the
unchecked overload, aims the record at `sampleMeta` bumping `mSharedCount`
directly, runs the rank sort from index 0, and reports the handle to the
callback.  Returns the handles in callback order plus the sort's
out-of-bounds flag. -/
def createLoop (cs : List Nat) (k : Nat) (pos : List Nat) :
    Nat → Universe → Universe × List EntityHandle × Bool
  | 0, s => (s, [], false)
  | n + 1, s =>
      let r := s.entityData.add ENTITY_REUSE_C ENTITY_BLOCK_SIZE ⟨MetaRef.table k, []⟩
      let gens := accommodate s.generations (getEntityId r.1)
      let inst := instantiateAll s.managers cs
      let hs := unpackPlain [] inst.2
      let sorted := sortHandles cs pos 0 hs
      let s2 := { s with
        entityData := setRecord r.2 r.1 ⟨MetaRef.table k, sorted.1⟩,
        generations := gens,
        managers := inst.1,
        table := tblUpdate k (fun m => { m with sharedCount := m.sharedCount + 1 }) s.table }
      let e := (⟨r.1, gens.getD (getEntityId r.1) 0, 0⟩ : EntityHandle)
      let rest := createLoop cs k pos n s2
      (rest.1, e :: rest.2.1, rest.2.2 || sorted.2)

/-- `Universe::create(n, f)` (dom.h lines 829-862): nothing happens for
`n = 0`; otherwise one representative entity is built (resolving the
archetype through `connect`), the callback is invoked for it, and then the
loop body runs `n` times.  Returns the handles in callback order plus the
combined out-of-bounds flag of the sorts. -/
def Universe.createN (CT : Nat) (s : Universe) (cs : List Nat) (n : Nat) :
    Universe × List EntityHandle × Bool :=
  if n = 0 then (s, [], false)
  else
    let r := s.entityData.add ENTITY_REUSE_C ENTITY_BLOCK_SIZE ⟨MetaRef.emptyMeta, []⟩
    let gens := accommodate s.generations (getEntityId r.1)
    let s1 := { s with entityData := r.2, generations := gens }
    let inst := instantiateAll s1.managers cs
    let up := unpackAll inst.1 [] (List.replicate CT false) inst.2
    let s2 := { s1 with managers := up.1 }
    let ct := connectTable s2.table up.2.2
    let s3 := { s2 with table := ct.1 }
    let pos := (metaOf s3 ct.2).positions
    let sorted := sortHandles cs pos 0 up.2.1
    let s4 := { s3 with entityData := setRecord s3.entityData r.1 ⟨ct.2, sorted.1⟩ }
    let e0 := (⟨r.1, gens.getD (getEntityId r.1) 0, 0⟩ : EntityHandle)
    let loop := createLoop cs (maskHash up.2.2) pos n s4
    (loop.1, e0 :: loop.2.1, loop.2.2 || sorted.2)

/-- The number of live entity records whose metadata reference aims at `r`. -/
def liveRefCount (s : Universe) (r : MetaRef) : Nat :=
  (s.entityData.store.filter (fun p => p.2.mMetaData == r)).length

/-- Demo run, universe of 3 component types: create one entity. -/
def demoCreate : Universe × EntityHandle := (Universe.fresh 3).create

def demoS1 : Universe := demoCreate.1

def demoE1 : EntityHandle := demoCreate.2

/-- Attach component type 0 to the demo entity (as `create<C>()` does). -/
def demoAdd : Universe × Bool := demoS1.addComponent demoE1 [0]

def demoS2 : Universe := demoAdd.1

/-- Destroy the demo entity. -/
def demoS3 : Universe := Universe.destroyEntity 3 demoS2 demoE1

/-- Request component type 0 for the demo entity a second time. -/
def demoDup : Universe × Bool := demoS2.addComponent demoE1 [0]

/-- Permutation run: entity 1 gets types (0, 1) in id order, entity 2 gets
types (2, 1, 0) — the `test_attach_order` scenario, ids Position = 0,
Velocity = 1, Gravity = 2, second entity built as
`create<Gravity, Velocity, Position>()`. -/
def permR1 : Universe × EntityHandle := (Universe.fresh 3).create

def permA1 : Universe × Bool := permR1.1.addComponent permR1.2 [0, 1]

def permR2 : Universe × EntityHandle := permA1.1.create

def permA2 : Universe × Bool := permR2.1.addComponent permR2.2 [2, 1, 0]

/-- Write 7 into entity 2's Position through `modify<Position>`. -/
def permS5 : Universe := permA2.1.modifyC permR2.2 0 7

/-- Then write 9 into entity 1's Position through `modify<Position>`. -/
def permS6 : Universe := permS5.modifyC permR1.2 0 9

end Dom

namespace Dom

/-- C9: `ChunkedArray::add` chooses the slot of the returned handle by exactly
this algorithm: if the free list holds more than `REUSE_C` entries, the oldest
freed handle (the queue front; `destroy` pushes at the back) is popped and
reused; otherwise, if the last block's element count has reached `BLOCK_SIZE`,
a new block is allocated and slot 0 of the new block is used; otherwise the
slot used is in the last block at index equal to that block's current element
count. -/
theorem claim_C9_add_slot_choice (REUSE_C BLOCK_SIZE : Nat) (ca : ChunkedArray Nat) (x : Nat)
    (_hne : ca.blocks ≠ []) :
    (REUSE_C < ca.freeSlots.length →
       (ca.add REUSE_C BLOCK_SIZE x).1 = ca.freeSlots.headD Handle.nullHandle ∧
       (ca.add REUSE_C BLOCK_SIZE x).2.freeSlots = ca.freeSlots.tail) ∧
    (ca.freeSlots.length ≤ REUSE_C → BLOCK_SIZE ≤ (ca.blocks.getLast?).getD 0 →
       (ca.add REUSE_C BLOCK_SIZE x).1 = ⟨ca.blocks.length, 0⟩ ∧
       (ca.add REUSE_C BLOCK_SIZE x).2.blocks.length = ca.blocks.length + 1) ∧
    (ca.freeSlots.length ≤ REUSE_C → (ca.blocks.getLast?).getD 0 < BLOCK_SIZE →
       (ca.add REUSE_C BLOCK_SIZE x).1 = ⟨ca.blocks.length - 1, (ca.blocks.getLast?).getD 0⟩) ∧
    (∀ h : Handle, (ca.destroy h).freeSlots = ca.freeSlots ++ [h]) := by
  refine ⟨?_, ?_, ?_, ?_⟩
  · intro hfree
    simp [ChunkedArray.add, if_pos hfree]
  · intro hfree hfull
    have hnot : ¬ REUSE_C < ca.freeSlots.length := Nat.not_lt.mpr hfree
    simp [ChunkedArray.add, if_neg hnot, if_pos hfull, List.length_set]
  · intro hfree hroom
    have hnot : ¬ REUSE_C < ca.freeSlots.length := Nat.not_lt.mpr hfree
    have hnotfull : ¬ BLOCK_SIZE ≤ (ca.blocks.getLast?).getD 0 := Nat.not_le.mpr hroom
    simp [ChunkedArray.add, if_neg hnot, if_neg hnotfull]
  · intro h
    rfl

/-- Witness for C9: each of the three branches at a concrete array.
Array `⟨[2], [(0,0)], []⟩` with `REUSE_C = 0` reuses the freed front slot;
with free list below the threshold, a full block (`BLOCK_SIZE = 2`) opens
block 1 slot 0, and a non-full one appends at index `contentCount`. -/
theorem claim_C9_add_slot_choice_witness :
    ((⟨[2], [⟨0, 0⟩], []⟩ : ChunkedArray Nat).add 0 8192 5).1 = ⟨0, 0⟩ ∧
    ((⟨[2], [], []⟩ : ChunkedArray Nat).add 0 2 5).1 = ⟨1, 0⟩ ∧
    ((⟨[1], [], []⟩ : ChunkedArray Nat).add 0 2 5).1 = ⟨0, 1⟩ := by
  refine ⟨?_, ?_, ?_⟩
  · have h := (claim_C9_add_slot_choice 0 8192 ⟨[2], [⟨0, 0⟩], []⟩ 5 (by decide)).1
      (by decide)
    simpa using h.1
  · have h := ((claim_C9_add_slot_choice 0 2 ⟨[2], [], []⟩ 5 (by decide)).2.1
      (by decide) (by decide))
    simpa using h.1
  · have h := ((claim_C9_add_slot_choice 0 2 ⟨[1], [], []⟩ 5 (by decide)).2.2.1
      (by decide) (by decide))
    simpa using h

/-- C3 (evidence of the code bug): with `REUSE_C = 1024` — the configuration
of the entity allocator — the sequence add, add, destroy-first, add places the
fourth element in the still-live slot of the second one: `destroy` decrements
`contentCount`, and `add` uses `contentCount` as the next fresh index while
the free list is at or below the reuse threshold.  The handle of the second
element then dereferences to the fourth element although it was never
destroyed. -/
theorem claim_C3_reuse_clobbers_live_slot :
    (((ChunkedArray.init Nat).add 1024 8192 10).2.add 1024 8192 20).1 = ⟨0, 1⟩ ∧
    (((((ChunkedArray.init Nat).add 1024 8192 10).2.add 1024 8192 20).2).destroy
        ⟨0, 0⟩).freeSlots = [⟨0, 0⟩] ∧
    ((((((ChunkedArray.init Nat).add 1024 8192 10).2.add 1024 8192 20).2).destroy
        ⟨0, 0⟩).add 1024 8192 30).1 = ⟨0, 1⟩ ∧
    (((((ChunkedArray.init Nat).add 1024 8192 10).2.add 1024 8192 20).2).get? ⟨0, 1⟩
        = some 20) ∧
    ((((((ChunkedArray.init Nat).add 1024 8192 10).2.add 1024 8192 20).2).destroy
        ⟨0, 0⟩).add 1024 8192 30).2.get? ⟨0, 1⟩ = some 30 := by
  decide

theorem findId_append_none (t : Nat) (a b : List (Nat × Nat)) (h : findId t a = none) :
    findId t (a ++ b) = findId t b := by
  induction a with
  | nil => rfl
  | cons p rest ih =>
      obtain ⟨t2, i⟩ := p
      by_cases ht : t2 = t
      · simp [findId, ht] at h
      · simp only [findId, List.cons_append, if_neg ht] at h ⊢
        exact ih h

theorem findId_nil_cache (t : Nat) : findId t [] = none := rfl

theorem getD_mem_of_lt {ts : List Nat} {i : Nat} (h : i < ts.length) : ts.getD i 0 ∈ ts := by
  induction ts generalizing i with
  | nil => simp at h
  | cons a rest ih =>
      cases i with
      | zero => simp [List.getD]
      | succ j =>
          have hj : j < rest.length := by simpa using h
          simpa [List.getD] using Or.inr (ih hj)

theorem findId_idAssign_notin (t : Nat) :
    ∀ (ts : List Nat) (c : Nat), t ∉ ts → findId t (idAssign ts c) = none := by
  intro ts
  induction ts with
  | nil => intro c _; rfl
  | cons a rest ih =>
      intro c hmem
      have ha : a ≠ t := fun h => hmem (h ▸ List.mem_cons_self a rest)
      have hrest : t ∉ rest := fun h => hmem (List.mem_cons_of_mem a h)
      simp only [idAssign, findId, if_neg ha]
      exact ih (c + 1) hrest

theorem findId_idAssign_self :
    ∀ (ts : List Nat) (i c : Nat), ts.Nodup → i < ts.length →
      findId (ts.getD i 0) (idAssign ts c) = some (c + i) := by
  intro ts
  induction ts with
  | nil => intro i c _ h; simp at h
  | cons a rest ih =>
      intro i c hnd hi
      have hnotin : a ∉ rest := (List.nodup_cons.mp hnd).1
      have hndrest : rest.Nodup := (List.nodup_cons.mp hnd).2
      cases i with
      | zero =>
          simp [List.getD, idAssign, findId]
      | succ j =>
          have hj : j < rest.length := by simpa using hi
          have hne : a ≠ rest.getD j 0 := by
            intro h
            exact hnotin (h ▸ getD_mem_of_lt hj)
          have hrec := ih j (c + 1) hndrest hj
          simp only [idAssign, List.getD_cons_succ, findId, if_neg hne]
          rw [hrec]
          congr 1
          omega

theorem registerSeq_fresh (COMP_TOTAL : Nat) :
    ∀ (ts : List Nat) (s : TraitsState), ts.Nodup →
      (∀ t ∈ ts, findId t s.cache = none) →
      s.idCounter + ts.length ≤ COMP_TOTAL →
      registerSeq COMP_TOTAL ts s =
        ⟨s.idCounter + ts.length, s.cache ++ idAssign ts s.idCounter⟩ := by
  intro ts
  induction ts with
  | nil =>
      intro s _ _ _
      simp [registerSeq, idAssign]
  | cons t rest ih =>
      intro s hnd hfresh hle
      have hlt : s.idCounter < COMP_TOTAL := by
        simp only [List.length_cons] at hle
        omega
      have hft : findId t s.cache = none := hfresh t (List.mem_cons_self t rest)
      have hstep : (getID COMP_TOTAL t s).2 =
          ⟨s.idCounter + 1, s.cache ++ [(t, s.idCounter)]⟩ := by
        simp [getID, hft, newID, if_pos hlt]
      have hrs : registerSeq COMP_TOTAL (t :: rest) s =
          registerSeq COMP_TOTAL rest (getID COMP_TOTAL t s).2 := rfl
      rw [hrs, hstep]
      have hfresh2 : ∀ t2 ∈ rest, findId t2 (s.cache ++ [(t, s.idCounter)]) = none := by
        intro t2 h2
        have hne : t ≠ t2 := by
          rintro rfl
          exact (List.nodup_cons.mp hnd).1 h2
        rw [findId_append_none t2 s.cache _ (hfresh t2 (List.mem_cons_of_mem t h2))]
        simp [findId, hne]
      have hle2 : s.idCounter + 1 + rest.length ≤ COMP_TOTAL := by
        simp only [List.length_cons] at hle
        omega
      rw [ih ⟨s.idCounter + 1, s.cache ++ [(t, s.idCounter)]⟩ (List.nodup_cons.mp hnd).2
        hfresh2 hle2]
      simp only [TraitsState.mk.injEq, List.length_cons, idAssign]
      constructor
      · omega
      · simp [List.append_assoc]

/-- C7: registering distinct component types assigns stable ids in
registration order.  Starting from a fresh id counter, registering
`COMP_TOTAL` pairwise-distinct types gives the i-th type id `i` (so the ids
are `0, …, COMP_TOTAL-1`, pairwise distinct), a repeated `getID` call for a
registered type returns the same id and changes nothing, and requesting an id
for a further distinct type throws `ComponentCountError` (modelled `none`)
while leaving the counter and every latched id unchanged. -/
theorem claim_C7_component_ids (COMP_TOTAL : Nat) (ts : List Nat) (hnd : ts.Nodup)
    (hlen : ts.length = COMP_TOTAL) :
    (∀ i, i < ts.length →
        getID COMP_TOTAL (ts.getD i 0) (registerSeq COMP_TOTAL ts TraitsState.init) =
          (some i, registerSeq COMP_TOTAL ts TraitsState.init)) ∧
    (registerSeq COMP_TOTAL ts TraitsState.init).idCounter = COMP_TOTAL ∧
    (∀ t, t ∉ ts →
        getID COMP_TOTAL t (registerSeq COMP_TOTAL ts TraitsState.init) =
          (none, registerSeq COMP_TOTAL ts TraitsState.init)) := by
  subst hlen
  have hreg := registerSeq_fresh ts.length ts TraitsState.init hnd
    (fun t _ => findId_nil_cache t) (by simp [TraitsState.init])
  have hs : registerSeq ts.length ts TraitsState.init =
      ⟨ts.length, idAssign ts 0⟩ := by
    simpa [TraitsState.init] using hreg
  refine ⟨?_, ?_, ?_⟩
  · intro i hi
    have hfind := findId_idAssign_self ts i 0 hnd hi
    rw [hs]
    simp only [getID]
    rw [hfind]
    simp
  · rw [hs]
  · intro t ht
    have hfind := findId_idAssign_notin t ts 0 ht
    rw [hs]
    simp [getID, hfind, newID]

/-- Witness for C7 at `COMP_TOTAL = 2` with type tokens 10 and 20: they get
ids 0 and 1, stably, and a third distinct token 30 fails with the state
unchanged. -/
theorem claim_C7_component_ids_witness :
    getID 2 10 (registerSeq 2 [10, 20] TraitsState.init) =
      (some 0, registerSeq 2 [10, 20] TraitsState.init) ∧
    getID 2 20 (registerSeq 2 [10, 20] TraitsState.init) =
      (some 1, registerSeq 2 [10, 20] TraitsState.init) ∧
    getID 2 30 (registerSeq 2 [10, 20] TraitsState.init) =
      (none, registerSeq 2 [10, 20] TraitsState.init) := by
  have h := claim_C7_component_ids 2 [10, 20] (by decide) rfl
  exact ⟨h.1 0 (by decide), h.1 1 (by decide), h.2.2 30 (by decide)⟩

/-- C10: `EntityHandle::operator==` is true exactly when the slot handles
(block and index) and the generation counters agree; the owning `Universe`
pointer is not compared, so handles into different universes with matching
slot and generation compare equal. -/
theorem claim_C10_entity_handle_eq :
    (∀ a b : EntityHandle,
       EntityHandle.eqOp a b = true ↔
         a.mHandle = b.mHandle ∧ a.mGeneration = b.mGeneration) ∧
    (∀ (h : Handle) (g u1 u2 : Nat),
       EntityHandle.eqOp ⟨h, g, u1⟩ ⟨h, g, u2⟩ = true) := by
  constructor
  · intro a b
    simp [EntityHandle.eqOp]
  · intro h g u1 u2
    simp [EntityHandle.eqOp]

theorem listGetD_oob {α : Type} :
    ∀ (l : List α) (j : Nat) (d : α), l.length ≤ j → l.getD j d = d := by
  intro l
  induction l with
  | nil => intro j d _; cases j <;> rfl
  | cons a rest ih =>
      intro j d h
      cases j with
      | zero => simp at h
      | succ i =>
          have : rest.length ≤ i := by simpa using h
          simpa [List.getD_cons_succ] using ih i d this

theorem listGetD_set_eq {α : Type} :
    ∀ (l : List α) (i : Nat) (v d : α), i < l.length → (l.set i v).getD i d = v := by
  intro l
  induction l with
  | nil => intro i v d h; simp at h
  | cons a rest ih =>
      intro i v d h
      cases i with
      | zero => rfl
      | succ j =>
          have : j < rest.length := by simpa using h
          simpa [List.set, List.getD_cons_succ] using ih j v d this

theorem listGetD_set_ne {α : Type} :
    ∀ (l : List α) (i j : Nat) (v d : α), i ≠ j → (l.set i v).getD j d = l.getD j d := by
  intro l
  induction l with
  | nil => intro i j v d _; rfl
  | cons a rest ih =>
      intro i j v d hne
      cases i with
      | zero =>
          cases j with
          | zero => exact absurd rfl hne
          | succ j2 => rfl
      | succ i2 =>
          cases j with
          | zero => rfl
          | succ j2 =>
              have : i2 ≠ j2 := fun h => hne (by rw [h])
              simpa [List.set, List.getD_cons_succ] using ih i2 j2 v d this

theorem destroyLoop_length (mask : List Bool) (pos : List Nat) (hs : List Handle) :
    ∀ (n : Nat) (ms : List (ChunkedArray Nat)),
      (destroyLoop mask pos hs n ms).length = ms.length := by
  intro n
  induction n with
  | zero => intro ms; rfl
  | succ n ih =>
      intro ms
      simp only [destroyLoop]
      split
      · rw [List.length_set, ih]
      · exact ih ms

theorem destroyLoop_getD (mask : List Bool) (pos : List Nat) (hs : List Handle) :
    ∀ (n : Nat) (ms : List (ChunkedArray Nat)) (j : Nat), j < ms.length →
      (destroyLoop mask pos hs n ms).getD j (ChunkedArray.init Nat) =
        if j < n ∧ mask.getD j false = true then
          (ms.getD j (ChunkedArray.init Nat)).destroy
            (hs.getD (pos.getD j 0) Handle.nullHandle)
        else ms.getD j (ChunkedArray.init Nat) := by
  intro n
  induction n with
  | zero =>
      intro ms j _
      have : ¬ (j < 0 ∧ mask.getD j false = true) := by omega
      simp [destroyLoop, this]
  | succ n ih =>
      intro ms j hj
      have hlen : (destroyLoop mask pos hs n ms).length = ms.length :=
        destroyLoop_length mask pos hs n ms
      simp only [destroyLoop]
      split
      · next hm =>
          by_cases hjn : j = n
          · subst hjn
            rw [listGetD_set_eq _ _ _ _ (by rw [hlen]; exact hj)]
            rw [ih ms j hj]
            have hnot : ¬ (j < j ∧ mask.getD j false = true) := by omega
            rw [if_neg hnot, if_pos ⟨Nat.lt_succ_self j, hm⟩]
          · rw [listGetD_set_ne _ _ _ _ _ (fun h => hjn h.symm)]
            rw [ih ms j hj]
            by_cases hc : mask.getD j false = true
            · by_cases hjlt : j < n
              · rw [if_pos ⟨hjlt, hc⟩, if_pos ⟨Nat.lt_succ_of_lt hjlt, hc⟩]
              · have hlt2 : ¬ j < n + 1 := by omega
                rw [if_neg (fun h2 : _ ∧ _ => hjlt h2.1),
                  if_neg (fun h2 : _ ∧ _ => hlt2 h2.1)]
            · rw [if_neg (fun h2 : _ ∧ _ => hc h2.2), if_neg (fun h2 : _ ∧ _ => hc h2.2)]
      · next hm =>
          rw [ih ms j hj]
          by_cases hjn : j = n
          · subst hjn
            have h1 : ¬ (j < j ∧ mask.getD j false = true) := by omega
            have h2 : ¬ (j < j + 1 ∧ mask.getD j false = true) := fun h2 => hm h2.2
            rw [if_neg h1, if_neg h2]
          · by_cases hc : mask.getD j false = true
            · by_cases hjlt : j < n
              · rw [if_pos ⟨hjlt, hc⟩, if_pos ⟨Nat.lt_succ_of_lt hjlt, hc⟩]
              · have hlt2 : ¬ j < n + 1 := by omega
                rw [if_neg (fun h2 : _ ∧ _ => hjlt h2.1),
                  if_neg (fun h2 : _ ∧ _ => hlt2 h2.1)]
            · rw [if_neg (fun h2 : _ ∧ _ => hc h2.2), if_neg (fun h2 : _ ∧ _ => hc h2.2)]

/-- C6: `destroyEntity` on an invalid handle leaves the whole state
unchanged.  On a valid handle it destroys, for every set bit `i` of the
entity's membership, the component handle stored at `i`'s recorded rank in
the owning per-type allocator (managers of unset bits are untouched), then
destroys the entity's own slot, then increments that slot's generation
counter exactly once (mod 2^16, every other slot unchanged), after which
`valid` is false for the handle and for every copy sharing its slot and
generation. -/
theorem claim_C6_destroyEntity_contract (CT : Nat) (s : Universe) (e : EntityHandle)
    (hm : s.managers.length = CT) :
    (s.validE e = false → Universe.destroyEntity CT s e = s) ∧
    (s.validE e = true → getEntityId e.mHandle < s.generations.length →
     e.mGeneration < 65536 →
      (∀ i, i < CT →
        (metaOf s (getRecord s.entityData e.mHandle).mMetaData).mask.getD i false = true →
        (Universe.destroyEntity CT s e).managers.getD i (ChunkedArray.init Nat) =
          (s.managers.getD i (ChunkedArray.init Nat)).destroy
            ((getRecord s.entityData e.mHandle).mComponentHandles.getD
              ((metaOf s (getRecord s.entityData e.mHandle).mMetaData).positions.getD i 0)
              Handle.nullHandle)) ∧
      (∀ i,
        (metaOf s (getRecord s.entityData e.mHandle).mMetaData).mask.getD i false = false →
        (Universe.destroyEntity CT s e).managers.getD i (ChunkedArray.init Nat) =
          s.managers.getD i (ChunkedArray.init Nat)) ∧
      (Universe.destroyEntity CT s e).entityData = s.entityData.destroy e.mHandle ∧
      (Universe.destroyEntity CT s e).generations.getD (getEntityId e.mHandle) 0 =
        (e.mGeneration + 1) % 65536 ∧
      (∀ j, j ≠ getEntityId e.mHandle →
        (Universe.destroyEntity CT s e).generations.getD j 0 = s.generations.getD j 0) ∧
      (∀ e2 : EntityHandle, e2.mHandle = e.mHandle → e2.mGeneration = e.mGeneration →
        (Universe.destroyEntity CT s e).validE e2 = false)) := by
  constructor
  · intro hinv
    simp [Universe.destroyEntity, hinv]
  · intro hval hid hgen
    have hg0 : s.generations.getD (getEntityId e.mHandle) 0 = e.mGeneration := by
      simpa [Universe.validE] using hval
    have hD : Universe.destroyEntity CT s e =
        { s with
          managers := destroyLoop
            (metaOf s (getRecord s.entityData e.mHandle).mMetaData).mask
            (metaOf s (getRecord s.entityData e.mHandle).mMetaData).positions
            (getRecord s.entityData e.mHandle).mComponentHandles CT s.managers,
          entityData := s.entityData.destroy e.mHandle,
          generations := s.generations.set (getEntityId e.mHandle)
            ((s.generations.getD (getEntityId e.mHandle) 0 + 1) % 65536) } := by
      simp [Universe.destroyEntity, hval]
    refine ⟨?_, ?_, ?_, ?_, ?_, ?_⟩
    · intro i hi hmask
      rw [hD]
      have := destroyLoop_getD
        (metaOf s (getRecord s.entityData e.mHandle).mMetaData).mask
        (metaOf s (getRecord s.entityData e.mHandle).mMetaData).positions
        (getRecord s.entityData e.mHandle).mComponentHandles CT s.managers i
        (by rw [hm]; exact hi)
      rw [this, if_pos ⟨hi, hmask⟩]
    · intro i hmask
      rw [hD]
      by_cases hilen : i < s.managers.length
      · have hrw := destroyLoop_getD
          (metaOf s (getRecord s.entityData e.mHandle).mMetaData).mask
          (metaOf s (getRecord s.entityData e.mHandle).mMetaData).positions
          (getRecord s.entityData e.mHandle).mComponentHandles CT s.managers i hilen
        have hmt : ¬ (i < CT ∧
            (metaOf s (getRecord s.entityData e.mHandle).mMetaData).mask.getD i false
              = true) := by
          intro hcontra
          have hcf := hcontra.2
          rw [hmask] at hcf
          exact absurd hcf (by decide)
        rw [hrw, if_neg hmt]
      · have hoob : s.managers.length ≤ i := Nat.not_lt.mp hilen
        rw [listGetD_oob _ _ _ (by
          rw [destroyLoop_length]
          exact hoob)]
        rw [listGetD_oob _ _ _ hoob]
    · rw [hD]
    · rw [hD]
      have := listGetD_set_eq s.generations (getEntityId e.mHandle)
        ((s.generations.getD (getEntityId e.mHandle) 0 + 1) % 65536) 0 hid
      rw [show ({ s with
          managers := destroyLoop
            (metaOf s (getRecord s.entityData e.mHandle).mMetaData).mask
            (metaOf s (getRecord s.entityData e.mHandle).mMetaData).positions
            (getRecord s.entityData e.mHandle).mComponentHandles CT s.managers,
          entityData := s.entityData.destroy e.mHandle,
          generations := s.generations.set (getEntityId e.mHandle)
            ((s.generations.getD (getEntityId e.mHandle) 0 + 1) % 65536) } : Universe).generations =
        s.generations.set (getEntityId e.mHandle)
          ((s.generations.getD (getEntityId e.mHandle) 0 + 1) % 65536) from rfl]
      rw [this, hg0]
    · intro j hj
      rw [hD]
      exact listGetD_set_ne s.generations (getEntityId e.mHandle) j _ 0 (fun h => hj h.symm)
    · intro e2 hh hg
      rw [hD]
      simp only [Universe.validE, hh]
      have hset := listGetD_set_eq s.generations (getEntityId e.mHandle)
        ((s.generations.getD (getEntityId e.mHandle) 0 + 1) % 65536) 0 hid
      rw [hset, hg0, hg]
      have : (e.mGeneration + 1) % 65536 ≠ e.mGeneration := by omega
      simpa using this

/-- Witness for C6 at a concrete run: one entity with component type 0
attached, then destroyed; plus the no-op branch on a stale handle. -/
theorem claim_C6_destroyEntity_contract_witness :
    (Universe.destroyEntity 3 demoS2 demoE1).validE demoE1 = false ∧
    (Universe.destroyEntity 3 demoS2 demoE1).entityData =
      demoS2.entityData.destroy demoE1.mHandle ∧
    (Universe.destroyEntity 3 demoS2 demoE1).generations.getD
      (getEntityId demoE1.mHandle) 0 = (demoE1.mGeneration + 1) % 65536 ∧
    (Universe.destroyEntity 3 demoS2 demoE1).managers.getD 0 (ChunkedArray.init Nat) =
      (demoS2.managers.getD 0 (ChunkedArray.init Nat)).destroy
        ((getRecord demoS2.entityData demoE1.mHandle).mComponentHandles.getD
          ((metaOf demoS2 (getRecord demoS2.entityData demoE1.mHandle).mMetaData).positions.getD
            0 0) Handle.nullHandle) ∧
    Universe.destroyEntity 3 demoS2 ⟨⟨0, 0⟩, 99, 0⟩ = demoS2 := by
  have h := claim_C6_destroyEntity_contract 3 demoS2 demoE1 (by decide)
  have hrest := h.2 (by decide) (by decide) (by decide)
  refine ⟨hrest.2.2.2.2.2 demoE1 rfl rfl, hrest.2.2.1, hrest.2.2.2.1, ?_, ?_⟩
  · exact hrest.1 0 (by decide) (by decide)
  · exact (claim_C6_destroyEntity_contract 3 demoS2 ⟨⟨0, 0⟩, 99, 0⟩ (by decide)).1 (by decide)

/-- C1 (evidence of the code bug): the batch create `Universe::create(n, f)`
with `n = 1` and one component type creates two entities and invokes the
callback twice: the representative entity is built and reported before a loop
that runs `n` further times (`for i = 0; i < n; ++i`), so `n + 1` entities
arise in total, not `n`. -/
theorem claim_C1_createN_overcounts :
    (Universe.createN 3 (Universe.fresh 3) [0] 1).2.1.length = 2 ∧
    (Universe.createN 3 (Universe.fresh 3) [0] 1).1.entityData.store.length = 2 ∧
    (Universe.createN 3 (Universe.fresh 3) [0] 1).2.2 = false := by
  decide

/-- C2 (evidence of the code bug): ids Position = 0, Velocity = 1,
Gravity = 2; entity 1 attaches (Position, Velocity), entity 2 attaches
(Gravity, Velocity, Position) — the `test_attach_order` scenario.  The
one-pass rank sort ends with entity 2's handle sequence `[(0,0),(0,1),(0,1)]`
although the Position instance built for entity 2 lives at (0,1): the handle
stored at Position's recorded rank is the slot of entity 1's Position.  Both
entities resolve Position to slot (0,0), so after writing 7 through
entity 2's `modify<Position>` and then 9 through entity 1's, entity 2's
`get<Position>` reads 9, not its own most recent write 7. -/
theorem claim_C2_attach_order_breaks_rank_lookup :
    permA1.2 = false ∧ permA2.2 = false ∧
    (getRecord permA2.1.entityData permR2.2.mHandle).mComponentHandles =
      [⟨0, 0⟩, ⟨0, 1⟩, ⟨0, 1⟩] ∧
    (metaOf permA2.1 (getRecord permA2.1.entityData permR2.2.mHandle).mMetaData).positions =
      [0, 1, 2] ∧
    (getRecord permA2.1.entityData permR2.2.mHandle).mComponentHandles.getD
      ((metaOf permA2.1
        (getRecord permA2.1.entityData permR2.2.mHandle).mMetaData).positions.getD 0 0)
      Handle.nullHandle =
      (getRecord permA2.1.entityData permR1.2.mHandle).mComponentHandles.getD
      ((metaOf permA2.1
        (getRecord permA2.1.entityData permR1.2.mHandle).mMetaData).positions.getD 0 0)
      Handle.nullHandle ∧
    permS5.getC permR2.2 0 = some 7 ∧
    permS6.getC permR2.2 0 = some 9 := by
  decide

/-- C4 (evidence of the code bug): create an entity, attach component type 0,
destroy the entity.  `destroyEntity` performs no `disconnect`, so the
archetype entry for mask 100 keeps `mSharedCount = 1` while no live entity
references it any more (the destroyed entity was the only one, as the
pre-state shows).  The member `mEmptyMeta` is never counted either: after the
attach, its `unsigned` count has wrapped to 2^32 - 1 with zero referencing
entities. -/
theorem claim_C4_refcount_not_maintained :
    demoAdd.2 = false ∧
    (tblLookup (maskHash [true, false, false]) demoS2.table).map MetaData.sharedCount =
      some 1 ∧
    liveRefCount demoS2 (MetaRef.table (maskHash [true, false, false])) = 1 ∧
    demoS3.validE demoE1 = false ∧
    (tblLookup (maskHash [true, false, false]) demoS3.table).map MetaData.sharedCount =
      some 1 ∧
    liveRefCount demoS3 (MetaRef.table (maskHash [true, false, false])) = 0 ∧
    demoS2.emptyMeta.sharedCount = 4294967295 ∧
    liveRefCount demoS2 MetaRef.emptyMeta = 0 := by
  decide

/-- C5 (evidence of the code bug): after the only entity carrying mask 100 is
destroyed via `destroyEntity`, the archetype entry for that mask is still in
`mComponentMetadata` — eviction happens only on the add/remove mutation
paths, which `destroyEntity` never takes, and the reference count never
returns to 0. -/
theorem claim_C5_no_eviction_on_destroy :
    demoS2.validE demoE1 = true ∧
    liveRefCount demoS2 (MetaRef.table (maskHash [true, false, false])) = 1 ∧
    demoS3.validE demoE1 = false ∧
    (tblLookup (maskHash [true, false, false]) demoS3.table).isSome = true := by
  decide

/-- C8 (evidence of the code bug): requesting component type 0 again for the
demo entity is rejected by `unpack` exactly as specified — the duplicate
instance is destroyed in manager 0 (one live instance remains and the freed
slot (0,1) is queued), no second handle is stored, and the membership mask
and the component value are unchanged — but the subsequent
`ComponentUnpacker::sort`, started at `sizeBefore = 1` on a handle vector of
length 1, executes `std::swap(handles[1], handles[0])`: an out-of-bounds
vector access, undefined behaviour (the Bool flag). -/
theorem claim_C8_duplicate_attach_oob :
    demoDup.2 = true ∧
    (demoDup.1.managers.getD 0 (ChunkedArray.init Nat)).store.length = 1 ∧
    (demoDup.1.managers.getD 0 (ChunkedArray.init Nat)).freeSlots = [⟨0, 1⟩] ∧
    (getRecord demoDup.1.entityData demoE1.mHandle).mComponentHandles =
      (getRecord demoS2.entityData demoE1.mHandle).mComponentHandles ∧
    (metaOf demoDup.1 (getRecord demoDup.1.entityData demoE1.mHandle).mMetaData).mask =
      (metaOf demoS2 (getRecord demoS2.entityData demoE1.mHandle).mMetaData).mask ∧
    demoDup.1.getC demoE1 0 = demoS2.getC demoE1 0 := by
  decide

end Dom
